import Mathlib

/-!
Verification of the zync-nuke plugin (`zync_nuke.py`) against its
natural-language specification.

The development shallowly embeds the parts of `zync_nuke.py` that the
claims are about:

* the Python string primitives the plugin uses (`str.replace`,
  `str.strip`, `str.lower`/`str.upper`, `str.format`, and the two
  `re.search` patterns of `freeze_node`);
* the POSIX `os.path` helpers `isabs`, `join` and `dirname` that
  `freeze_node` calls (`os.path.abspath` is environment dependent —
  it resolves against the process working directory — and is kept
  abstract as a field of the `Host` record);
* the host (Nuke) surface consumed by the plugin: knob maps, the knob
  expression evaluator, `nuke.filename`, the project directory and the
  script name, all collected in a `Host` record;
* `freeze_node` / `freeze_stereo_node` (expression freezing);
* `get_dependent_nodes` (the dependency-closure walker);
* `ZyncRenderPanel.submit_checks` and the ok-button flow of
  `knobChanged` / `showModalDialog` (validation before submission);
* the `WriteChanges` context manager (scoped mutate / export / undo).

Machine-level caveats of the embedding are recorded next to each
definition.
-/

namespace ZyncNuke

/-! ### Python string primitives -/

/-- The `{` character, written via its code point so that brace characters
never appear bare in the source. -/
def lbrace : Char := Char.ofNat 123

/-- The `}` character. -/
def rbrace : Char := Char.ofNat 125

/-- One step bound for `str.replace`: each loop iteration of the Python
`replace` method consumes at least one character of the subject (matches are
non-overlapping, scanned left to right), so `s.length` iterations always
suffice; the fuel argument makes the recursion structural. -/
def replaceFuel (pat rep : List Char) : Nat → List Char → List Char
  | 0, s => s
  | _fuel+1, [] => []
  | fuel+1, c :: rest =>
    if !pat.isEmpty && pat.isPrefixOf (c :: rest) then
      rep ++ replaceFuel pat rep fuel ((c :: rest).drop pat.length)
    else
      c :: replaceFuel pat rep fuel rest

/-- Python `s.replace(pat, rep)` for a non-empty `pat`: replace every
non-overlapping occurrence, scanning left to right. -/
def pyReplace (s pat rep : String) : String :=
  String.mk (replaceFuel pat.data rep.data s.data.length s.data)

/-- Python `s.lower()` (the plugin only ever lowercases ASCII view names,
where `Char.toLower` agrees with Python). -/
def pyLower (s : String) : String := String.mk (s.data.map Char.toLower)

/-- Python `s.upper()` (ASCII). -/
def pyUpper (s : String) : String := String.mk (s.data.map Char.toUpper)

/-- Python `str` whitespace (the characters stripped by `str.strip()`):
space, tab, newline, carriage return, vertical tab, form feed. -/
def isPySpace (c : Char) : Bool :=
  c = ' ' || c = '\t' || c = '\n' || c = '\r' || c = Char.ofNat 11 || c = Char.ofNat 12

/-- Python `s.strip()`. -/
def pyStrip (s : String) : String :=
  String.mk (((s.data.dropWhile isPySpace).reverse.dropWhile isPySpace).reverse)

/-- Test whether `pat` occurs as a contiguous substring of `s`
(Python `pat in s` for lists of characters). -/
def hasInfix : List Char → List Char → Bool
  | [], pat => pat.isPrefixOf ([] : List Char)
  | c :: rest, pat => pat.isPrefixOf (c :: rest) || hasInfix rest pat

/-! ### The two `re.search` patterns of `freeze_node` (lines 108-111)

`freeze_node` hides frame-number tokens behind placeholders before
evaluating a knob, using `re.search` with the patterns `#+` and `%.*d`.
`re.search` returns the leftmost match, and both patterns are greedy. -/

/-- Length of the leading run of `#` characters. -/
def runLen : List Char → Nat
  | [] => 0
  | c :: rest => if c = '#' then runLen rest + 1 else 0

/-- Model of `re.search` with the pattern `#+`: the leftmost maximal run of the `#` character, returned as
`(start index, length)`. -/
def findHashMatch (s : List Char) : Option (Nat × Nat) :=
  match s.findIdx? (fun c => c = '#') with
  | none => none
  | some i => some (i, runLen (s.drop i))

/-- Index of the last occurrence of `c` in `l`. -/
def lastIdxOf (c : Char) (l : List Char) : Option Nat :=
  match l.reverse.findIdx? (fun d => d = c) with
  | none => none
  | some k => some (l.length - 1 - k)

/-- Scan for `re.search` with the pattern `%.*d`, starting at absolute offset `off`.
A match starts at the leftmost `%` that is followed by a `d` with no
newline in between (`.` does not match a newline), and the greedy `.*`
extends it to the last such `d`. -/
def findPDFrom : List Char → Nat → Option (Nat × Nat)
  | [], _ => none
  | c :: rest, off =>
    if c = '%' then
      match lastIdxOf 'd' (rest.takeWhile (fun d => d ≠ '\n')) with
      | some k => some (off, k + 2)
      | none => findPDFrom rest (off + 1)
    else
      findPDFrom rest (off + 1)

/-- Model of `re.search` with the pattern `%.*d`, as `(start index, length)`. -/
def findPDMatch (s : List Char) : Option (Nat × Nat) := findPDFrom s 0

/-- Decimal digits of `k`, most significant first (fuelled: `fuel > log10 k`
iterations suffice; callers pass `k + 1`). -/
def natDigits : Nat → Nat → List Char
  | 0, _ => []
  | fuel+1, k =>
    if k < 10 then [Char.ofNat (48 + k)]
    else natDigits fuel (k / 10) ++ [Char.ofNat (48 + k % 10)]

/-- Python percent-formatting of a natural number `k` with the `%d` conversion. -/
def natToStr (k : Nat) : String := String.mk (natDigits (k + 1) k)

/-- The `while match:` loop of `freeze_node` (lines 113-121) for one regex:
replace each match with a brace-wrapped `__frameN` placeholder (`N` =
number of placeholders + 1, as Python formats from `len(placeholders)+1`),
recording the matched
substring.  Each iteration removes at least one `#` (for `#+`) or one `d`
(for `%.*d`) and the inserted placeholder text contains neither, so a fuel
of (count of that character + 1) always reaches the no-match state. -/
def substLoop (find : List Char → Option (Nat × Nat)) :
    Nat → List Char → List (String × String) → List Char × List (String × String)
  | 0, s, ph => (s, ph)
  | fuel+1, s, ph =>
    match find s with
    | none => (s, ph)
    | some (i, len) =>
      let name : String := "__frame" ++ natToStr (ph.length + 1)
      let original : String := String.mk ((s.drop i).take len)
      let repl : List Char := lbrace :: name.data ++ [rbrace]
      substLoop find fuel (s.take i ++ repl ++ s.drop (i + len)) (ph ++ [(name, original)])

/-- Lines 106-121 of `freeze_node`: hide every `#+` match, then every
`%.*d` match, behind `{__frameN}` placeholders.  Returns the rewritten
string (`to_eval`) and the placeholder dictionary (as an association list;
Python only ever queries it by key and takes its length). -/
def placeholderSubst (v : List Char) : List Char × List (String × String) :=
  let r1 := substLoop findHashMatch (v.count '#' + 1) v []
  substLoop findPDMatch (r1.1.count 'd' + 1) r1.1 r1.2

/-! ### Python `str.format` (line 128: `frozen_path.format(**placeholders)`) -/

/-- Errors raised by `str.format`: a lone `{` or `}` (Python
`ValueError: Single ... encountered in format string`), or a replacement
field whose name is not among the keyword arguments (Python `KeyError`;
an empty field name raises `IndexError` instead, which we do not
distinguish). -/
inductive FmtErr
  | singleOpen
  | singleClose
  | keyError (k : String)
  deriving DecidableEq

/-- Keyword-argument lookup for `format`. -/
def lookupPh (m : List (String × String)) (k : String) : Option String :=
  (m.find? (fun p => p.1 = k)).map (fun p => p.2)

/-- Scanner for `str.format`.  `{{` and `}}` are escapes; `{name}` is replaced
by the keyword argument `name`; a `{` with no closing `}` or a lone `}`
raises.  The replacement fields produced by the plugin are always the plain names
`__frameN`, so conversion/format-spec syntax (`!`, `:`) and
attribute/index field access are not modelled: everything up to the
closing brace is the field name.  Each step consumes at least one
character, so fuel `s.length + 1` never runs out. -/
def pyFormatAux (m : List (String × String)) : Nat → List Char → Except FmtErr (List Char)
  | 0, s => Except.ok s
  | _fuel+1, [] => Except.ok []
  | fuel+1, c :: rest =>
    if c = lbrace then
      match rest with
      | [] => Except.error FmtErr.singleOpen
      | c2 :: rest2 =>
        if c2 = lbrace then
          (pyFormatAux m fuel rest2).map (fun t => lbrace :: t)
        else
          let name := (c2 :: rest2).takeWhile (fun d => d ≠ rbrace)
          if name.length = (c2 :: rest2).length then Except.error FmtErr.singleOpen
          else
            match lookupPh m (String.mk name) with
            | none => Except.error (FmtErr.keyError (String.mk name))
            | some v =>
              (pyFormatAux m fuel ((c2 :: rest2).drop (name.length + 1))).map
                (fun t => v.data ++ t)
    else if c = rbrace then
      match rest with
      | c2 :: rest2 =>
        if c2 = rbrace then (pyFormatAux m fuel rest2).map (fun t => rbrace :: t)
        else Except.error FmtErr.singleClose
      | [] => Except.error FmtErr.singleClose
    else
      (pyFormatAux m fuel rest).map (fun t => c :: t)

/-- Python `s.format(**m)`. -/
def pyFormat (s : String) (m : List (String × String)) : Except FmtErr String :=
  (pyFormatAux m (s.data.length + 1) s.data).map String.mk

/-! ### POSIX `os.path` helpers used by `freeze_node` (lines 131-140) -/

/-- Model of `os.path.isabs` (POSIX): the path starts with a slash. -/
def pyIsAbs (p : String) : Bool :=
  match p.data with
  | [] => false
  | c :: _ => c = '/'

/-- Model of `os.path.join(a, b)` (POSIX, two arguments): an absolute `b` discards
`a`; otherwise the parts are glued with a single `/` unless `a` is empty
or already ends in `/`. -/
def pyJoin (a b : String) : String :=
  if pyIsAbs b then b
  else if a = "" then b
  else if a.data.getLast? = some '/' then a ++ b
  else a ++ "/" ++ b

/-- Model of `os.path.dirname(p)` (POSIX): everything before the final slash,
with trailing slashes removed unless the result is all slashes. -/
def pyDirname (p : String) : String :=
  let head : List Char := ((p.data.reverse.dropWhile (fun c => c ≠ '/'))).reverse
  if head.isEmpty then ""
  else if head.all (fun c => c = '/') then String.mk head
  else String.mk ((head.reverse.dropWhile (fun c => c = '/')).reverse)

/-! ### The host surface consumed by `freeze_node` -/

/-- A knob value as seen through `knob.value()`: a string, or some
non-string value (line 96 skips those). -/
inductive KnobVal
  | str (s : String)
  | nonstr
  deriving DecidableEq

/-- The knobs of one node, by knob name; `none` models `node.knob(name)`
returning `None` (line 92). -/
abbrev KnobMap := String → Option KnobVal

/-- Model of `knob.setValue(v)` for a string value. -/
def setKnob (m : KnobMap) (kn : String) (v : String) : KnobMap :=
  fun x => if x = kn then some (KnobVal.str v) else m x

/-- A knob map holding a single string-valued knob. -/
def singleKnob (kn v : String) : KnobMap :=
  fun x => if x = kn then some (KnobVal.str v) else none

/-- The host (Nuke) state `freeze_node` reads:
`eval` is `knob.evaluate()` as a function of the current knob text,
`filename` is `nuke.filename(node)` (line 101),
`project_dir` is the evaluated project_directory knob of the root node
(empty when unset, per the falsiness test at line 137),
`script_name` is the name knob of the root node (line 138), and
`abspath` is `os.path.abspath`, abstract because it resolves relative
paths against the process working directory. -/
structure Host where
  eval : String → String
  filename : String
  project_dir : String
  script_name : String
  abspath : String → String

/-- A host whose evaluator is the given function and whose remaining
fields are inert. -/
def mkHost (evalf : String → String) : Host :=
  ⟨evalf, "", "", "", fun s => s⟩

/-- A host that evaluates every expression to itself. -/
def hostId : Host := mkHost (fun s => s)

/-! ### `freeze_node` (lines 84-145) and `freeze_stereo_node` (lines 71-82) -/

/-- Lines 102-130 for a non-Write node: hide frame tokens, evaluate the
knob, substitute the recorded tokens back via `str.format` (which can
raise, line 128). -/
def freezeExpr (evalf : String → String) (v : String) : Except FmtErr String :=
  let r := placeholderSubst v.data
  pyFormat (evalf (String.mk r.1)) r.2

/-- Lines 98-130: the expression branch.  Returns the updated knob map
together with the current string value of the knob (what `knob.value()` would
now return). -/
def step1 (h : Host) (cls : String) (m : KnobMap) (kn : String) (knob_value : String) :
    Except FmtErr (KnobMap × String) :=
  if knob_value.data.contains '[' then
    if cls = "Write" then Except.ok (setKnob m kn h.filename, h.filename)
    else
      match freezeExpr h.eval knob_value with
      | Except.error e => Except.error e
      | Except.ok frozen_path => Except.ok (setKnob m kn frozen_path, frozen_path)
  else Except.ok (m, knob_value)

/-- Lines 131-140: for Write nodes only, absolutise a relative path
against the project directory, falling back to the script directory. -/
def step2 (h : Host) (cls : String) (kn : String) (p : KnobMap × String) : KnobMap × String :=
  if cls = "Write" then
    if pyIsAbs p.2 then p
    else
      let project_dir := if h.project_dir = "" then pyDirname h.script_name else h.project_dir
      let absolute_path := h.abspath (pyJoin project_dir p.2)
      (setKnob p.1 kn absolute_path, absolute_path)
  else p

/-- Lines 141-145: if a view was given, write back the ORIGINAL
`knob_value` (captured at line 94, before any freezing) with `%v`/`%V`
replaced. -/
def viewSubst (v vw : String) : String :=
  pyReplace (pyReplace v "%v" (pyLower vw)) "%V" (pyUpper vw)

/-- The view write-back step as it acts on the knob map. -/
def step3 (view : Option String) (kn : String) (knob_value : String) (p : KnobMap × String) :
    KnobMap :=
  match view with
  | none => p.1
  | some vw => setKnob p.1 kn (viewSubst knob_value vw)

/-- One iteration of the `for knob_name in knob_names` loop of
`freeze_node` (lines 90-145). -/
def processKnob (h : Host) (cls : String) (view : Option String) (m : KnobMap) (kn : String) :
    Except FmtErr KnobMap :=
  match m kn with
  | none => Except.ok m
  | some KnobVal.nonstr => Except.ok m
  | some (KnobVal.str knob_value) =>
    match step1 h cls m kn knob_value with
    | Except.error e => Except.error e
    | Except.ok p => Except.ok (step3 view kn knob_value (step2 h cls kn p))

/-- Model of `freeze_node(node, view)` (lines 84-145): process the `file` and then
the `font` knob; an exception raised while freezing `file` propagates and
`font` is never reached. -/
def freeze_node (h : Host) (cls : String) (view : Option String) (m : KnobMap) :
    Except FmtErr KnobMap :=
  match processKnob h cls view m "file" with
  | Except.error e => Except.error e
  | Except.ok m1 => processKnob h cls view m1 "font"

/-- Model of `freeze_stereo_node(node, view)` (lines 71-82): `freeze_node` without
a view, then `%v`/`%V` substitution on the `file` knob.  Python reads
the file knob value unconditionally; the fall-through arm (knob
absent or non-string, on which the host would raise) is never exercised
here. -/
def freeze_stereo_node (h : Host) (cls : String) (view : Option String) (m : KnobMap) :
    Except FmtErr KnobMap :=
  match freeze_node h cls none m with
  | Except.error e => Except.error e
  | Except.ok m1 =>
    match view with
    | none => Except.ok m1
    | some vw =>
      match m1 "file" with
      | some (KnobVal.str file_name) => Except.ok (setKnob m1 "file" (viewSubst file_name vw))
      | _ => Except.ok m1

/-- The value of knob `kn` after a freezing step, `none` when the step
raised. -/
def knobValueAfter (r : Except FmtErr KnobMap) (kn : String) : Option KnobVal :=
  match r with
  | Except.error _ => none
  | Except.ok m => m kn

/-! ### `get_dependent_nodes` (lines 43-61)

Nodes are drawn from the finite type `Fin n`; `deps x` models
`nuke.dependencies([x])` (the direct upstream dependencies), and
`nuke.dependencies(list)` of a list is the union over its members.
The `while True:` loop runs `diff := all_deps - seen` /
`all_deps ∪= deps(diff)` / `seen ∪= diff` and stops once `diff` is empty
(Python checks after the two no-op updates; the result is identical).
`seen` grows strictly on every non-final iteration and lives inside a
universe of `n` nodes, so `n + 1` iterations always reach the exit. -/

/-- The fixed-point loop of `get_dependent_nodes` (lines 52-59). -/
def gdnLoop {n : Nat} (deps : Fin n → Finset (Fin n)) :
    Nat → Finset (Fin n) → Finset (Fin n) → Finset (Fin n)
  | 0, all_deps, _seen => all_deps
  | fuel+1, all_deps, seen =>
    if all_deps \ seen = ∅ then all_deps
    else gdnLoop deps fuel (all_deps ∪ (all_deps \ seen).biUnion deps) (seen ∪ (all_deps \ seen))

/-- Model of `get_dependent_nodes(root)`: seed with the root and its direct
dependencies (lines 49-50), then iterate to the fixed point.  The Python
function returns `list(all_deps)`; the set is its faithful meaning. -/
def get_dependent_nodes {n : Nat} (deps : Fin n → Finset (Fin n)) (root : Fin n) :
    Finset (Fin n) :=
  gdnLoop deps (n + 1) ({root} ∪ ({root} : Finset (Fin n)).biUnion deps) ∅

/-- The dependency edge relation: `b` is a direct dependency of `a`. -/
def depEdge {n : Nat} (deps : Fin n → Finset (Fin n)) (a b : Fin n) : Prop :=
  b ∈ deps a

/-- The closure of a node set, as computed by the `select_deps` loop
(lines 63-69): the union of `get_dependent_nodes` over the set. -/
def depClosure {n : Nat} (deps : Fin n → Finset (Fin n)) (S : Finset (Fin n)) :
    Finset (Fin n) :=
  S.biUnion (get_dependent_nodes deps)

/-! ### Submission validation (`submit_checks`, lines 519-540, and the
ok-button flow of `knobChanged` / `showModalDialog`, lines 620-668) -/

/-- The panel and session state read by `submit_checks`:
`logged_in` is `ZYNC.has_user_login()`, the two project fields are the
dropdown and text knob values, `skip_check` the checkbox, and
`ask_answer` the reply of the user to the `nuke.ask` confirmation. -/
structure PanelState where
  logged_in : Bool
  existing_project : String
  new_project : String
  skip_check : Bool
  ask_answer : Bool

/-- The three `zync.ZyncError`s `submit_checks` can raise. -/
inductive ZyncError
  | notLoggedIn
  | blankProject
  | canceled
  deriving DecidableEq

/-- Model of `ZyncRenderPanel.submit_checks` (lines 519-540): no login, then blank
project name (both fields empty after `strip()`), then a declined
skip-file-check confirmation. -/
def submit_checks (st : PanelState) : Option ZyncError :=
  if st.logged_in = false then some ZyncError.notLoggedIn
  else if pyStrip st.existing_project = "" ∧ pyStrip st.new_project = "" then
    some ZyncError.blankProject
  else if st.skip_check = true ∧ st.ask_answer = false then some ZyncError.canceled
  else none

/-- The ok-button flow: `knobChanged` runs `submit_checks` while the modal
dialog is still open (lines 623-640) and re-raises on failure, so
`submit()` — the only code that mutates or exports the graph, modelled by
the arbitrary `submit_effect` — runs only when every check passed
(lines 663-668).  The result pairs the final document state with the
validation error, if any. -/
def click_submit (st : PanelState) (doc : Nat) (submit_effect : Nat → Nat) :
    Nat × Option ZyncError :=
  match submit_checks st with
  | some e => (doc, some e)
  | none => (submit_effect doc, none)

/-! ### `WriteChanges` (lines 233-281)

`__enter__` begins an undo group; the block body mutates the live
document in place and may raise; `__exit__` (which Python runs on every
exit path, with the pending exception, and which does not suppress it)
first calls `save_func` on the mutated document and then `undo.cancel()`,
which rolls the document back to its state at `begin`.  The
enable/disable bookkeeping of the `Undo` object does not touch the
document and is not modelled.

`body d` returns the (possibly partially) mutated document together with
the exception the block raised, if any; `save` models `save_func`
(default `nuke.scriptSave`), which can itself raise.  The result is
(final live document, exported file if the save succeeded, surfaced
exception if any). -/
def writeChanges {Doc File Err : Type} (save : Doc → Except Err File)
    (body : Doc → Doc × Option Err) (doc : Doc) : Doc × Option File × Option Err :=
  let r := body doc
  match save r.1 with
  | Except.error e => (r.1, none, some e)
  | Except.ok f => (doc, some f, r.2)

/-! ### Concrete hosts and inputs used in the claim instances -/

/-- A host evaluator that resolves the expression `[knob foo]` to `v1`
and nothing else (the view-independent evaluator of the frame
token test). -/
def evalFoo : String → String := fun s => pyReplace s "[knob foo]" "v1"

/-- A host evaluator that resolves the expression `[x]` to `y` and
nothing else. -/
def evalX : String → String := fun s => pyReplace s "[x]" "y"

/-- A host with the `[x] → y` evaluator. -/
def hostX : Host := mkHost evalX

/-- A host with a configured project directory and a saved script path,
whose `abspath` leaves already-joined paths alone. -/
def hC7w : Host := ⟨fun s => s, "", "/proj", "/jobs/show/comp.nk", fun s => s⟩

/-- Panel state: logged in, no existing project chosen (whitespace), new
project field empty. -/
def stBlank : PanelState := ⟨true, "  ", "", false, true⟩

/-- A node with an expression-bearing stereo path. -/
def mC9 : KnobMap := singleKnob "file" "[x].%v.exr"

/-- The knob map `freeze_node` produces from `mC9` with view `left`:
the expression branch writes the frozen path, then the view step
overwrites it with the view-substituted original value. -/
def mC9out : KnobMap :=
  setKnob (setKnob mC9 "file" "[x].%v.exr") "file" (viewSubst "[x].%v.exr" "left")

/-! ### Invariants of the closure walker -/

/-- The loop only ever adds nodes: its result contains its input set. -/
theorem gdnLoop_subset {n : Nat} (deps : Fin n → Finset (Fin n)) :
    ∀ fuel a s, a ⊆ gdnLoop deps fuel a s := by
  intro fuel
  induction fuel with
  | zero => intro a s; exact fun x hx => hx
  | succ k ih =>
    intro a s
    unfold gdnLoop
    split
    · exact fun x hx => hx
    · exact fun x hx => ih _ _ (Finset.mem_union_left _ hx)

/-- Everything the loop discovers is reachable from the seed set: any
predicate closed under direct dependencies and true on the input set is
true on the result. -/
theorem gdnLoop_sound {n : Nat} (deps : Fin n → Finset (Fin n)) (P : Fin n → Prop)
    (hP : ∀ x y, P x → y ∈ deps x → P y) :
    ∀ fuel a s, (∀ x ∈ a, P x) → ∀ y ∈ gdnLoop deps fuel a s, P y := by
  intro fuel
  induction fuel with
  | zero => intro a s ha y hy; exact ha y hy
  | succ k ih =>
    intro a s ha
    unfold gdnLoop
    split
    · exact ha
    · refine ih _ _ ?_
      intro x hx
      rcases Finset.mem_union.mp hx with hx | hx
      · exact ha x hx
      · rcases Finset.mem_biUnion.mp hx with ⟨z, hz, hxz⟩
        exact hP z x (ha z (Finset.mem_sdiff.mp hz).1) hxz

/-- With enough fuel the loop reaches its fixed point: the result is
closed under direct dependencies.  The invariant is that `seen ⊆ all_deps`
and the dependencies of every seen node are already in `all_deps`; `seen` grows
strictly while fuel is spent, and cannot exceed the `n` nodes. -/
theorem gdnLoop_closed {n : Nat} (deps : Fin n → Finset (Fin n)) :
    ∀ fuel (a s : Finset (Fin n)), s ⊆ a → (∀ x ∈ s, deps x ⊆ a) →
      n + 1 ≤ fuel + s.card →
      ∀ x ∈ gdnLoop deps fuel a s, deps x ⊆ gdnLoop deps fuel a s := by
  intro fuel
  induction fuel with
  | zero =>
    intro a s _hsa _hdeps hcard
    exfalso
    have h1 : s.card ≤ n := by
      have := Finset.card_le_card (Finset.subset_univ s)
      simpa using this
    omega
  | succ k ih =>
    intro a s hsa hdeps hcard
    unfold gdnLoop
    split
    · rename_i hempty
      have hasub : a ⊆ s := Finset.sdiff_eq_empty_iff_subset.mp hempty
      intro x hx
      exact hdeps x (hasub hx)
    · rename_i hne
      have hdisj : Disjoint s (a \ s) := (Finset.sdiff_disjoint).symm
      have hpos : 0 < (a \ s).card :=
        Finset.card_pos.mpr (Finset.nonempty_iff_ne_empty.mpr hne)
      refine ih _ _ ?_ ?_ ?_
      · intro x hx
        rcases Finset.mem_union.mp hx with hx | hx
        · exact Finset.mem_union_left _ (hsa hx)
        · exact Finset.mem_union_left _ (Finset.mem_sdiff.mp hx).1
      · intro x hx
        rcases Finset.mem_union.mp hx with hx | hx
        · exact fun y hy => Finset.mem_union_left _ (hdeps x hx hy)
        · exact fun y hy => Finset.mem_union_right _ (Finset.mem_biUnion.mpr ⟨x, hx, hy⟩)
      · rw [Finset.card_union_of_disjoint hdisj]
        omega

/-- Membership in `get_dependent_nodes` is exactly reachability along
dependency edges from the root. -/
theorem gdn_mem_iff {n : Nat} (deps : Fin n → Finset (Fin n)) (root y : Fin n) :
    y ∈ get_dependent_nodes deps root ↔ Relation.ReflTransGen (depEdge deps) root y := by
  constructor
  · intro hy
    refine gdnLoop_sound deps (fun z => Relation.ReflTransGen (depEdge deps) root z)
      ?_ (n + 1) _ ∅ ?_ y hy
    · intro x z hx hz
      exact Relation.ReflTransGen.tail hx hz
    · intro x hx
      rcases Finset.mem_union.mp hx with hx | hx
      · have : x = root := Finset.mem_singleton.mp hx
        exact this ▸ Relation.ReflTransGen.refl
      · rcases Finset.mem_biUnion.mp hx with ⟨z, hz, hxz⟩
        have : z = root := Finset.mem_singleton.mp hz
        exact Relation.ReflTransGen.single (this ▸ hxz)
  · intro hr
    have hclosed : ∀ x ∈ get_dependent_nodes deps root,
        deps x ⊆ get_dependent_nodes deps root := by
      refine gdnLoop_closed deps (n + 1) _ ∅ ?_ ?_ ?_
      · exact Finset.empty_subset _
      · intro x hx; exact absurd hx (Finset.not_mem_empty x)
      · simp
    have hroot : root ∈ get_dependent_nodes deps root :=
      gdnLoop_subset deps (n + 1) _ ∅
        (Finset.mem_union_left _ (Finset.mem_singleton_self root))
    induction hr with
    | refl => exact hroot
    | tail _hab hbc ih => exact hclosed _ ih hbc

/-! ### Helper lemmas about the string and knob primitives -/

/-- If `pat` does not occur in `s`, the replace loop returns `s`. -/
theorem replaceFuel_id (pat rep : List Char) :
    ∀ fuel s, hasInfix s pat = false → replaceFuel pat rep fuel s = s := by
  intro fuel
  induction fuel with
  | zero => intro s _h; rfl
  | succ k ih =>
    intro s h
    match s with
    | [] => rfl
    | c :: rest =>
      unfold hasInfix at h
      rw [Bool.or_eq_false_iff] at h
      unfold replaceFuel
      rw [h.1, Bool.and_false, if_neg (by simp)]
      rw [ih rest h.2]

/-- Python `s.replace(pat, rep) == s` when `pat` does not occur in `s`. -/
theorem pyReplace_id (s pat rep : String) (h : hasInfix s.data pat.data = false) :
    pyReplace s pat rep = s := by
  unfold pyReplace
  rw [replaceFuel_id pat.data rep.data s.data.length s.data h]

/-- View substitution is the identity on values containing neither view
token. -/
theorem viewSubst_id (v vw : String) (h1 : hasInfix v.data ("%v".data) = false)
    (h2 : hasInfix v.data ("%V".data) = false) : viewSubst v vw = v := by
  unfold viewSubst
  rw [pyReplace_id v _ _ h1, pyReplace_id v _ _ h2]

/-- Reading back the knob just set. -/
theorem setKnob_same (m : KnobMap) (kn v : String) :
    setKnob m kn v kn = some (KnobVal.str v) := by
  simp [setKnob]

/-- Setting one knob leaves the others alone. -/
theorem setKnob_other (m : KnobMap) (kn v x : String) (hx : x ≠ kn) :
    setKnob m kn v x = m x := by
  simp [setKnob, hx]

/-- The stage `step1` only writes the knob it is processing. -/
theorem step1_preserves (h : Host) (cls : String) (m : KnobMap) (kn knob_value : String)
    (p : KnobMap × String) (hr : step1 h cls m kn knob_value = Except.ok p)
    (x : String) (hx : x ≠ kn) : p.1 x = m x := by
  unfold step1 at hr
  split at hr
  · split at hr
    · cases hr
      exact setKnob_other m kn _ x hx
    · split at hr
      · cases hr
      · cases hr
        exact setKnob_other m kn _ x hx
  · cases hr
    rfl

/-- The stage `step2` only writes the knob it is processing. -/
theorem step2_preserves (h : Host) (cls : String) (kn : String) (p : KnobMap × String)
    (x : String) (hx : x ≠ kn) : (step2 h cls kn p).1 x = p.1 x := by
  unfold step2
  split
  · split
    · rfl
    · exact setKnob_other p.1 kn _ x hx
  · rfl

/-- The stage `step3` only writes the knob it is processing. -/
theorem step3_preserves (view : Option String) (kn knob_value : String)
    (p : KnobMap × String) (x : String) (hx : x ≠ kn) :
    step3 view kn knob_value p x = p.1 x := by
  unfold step3
  split
  · rfl
  · exact setKnob_other p.1 kn _ x hx

/-- Processing one knob never changes any other knob. -/
theorem processKnob_preserves (h : Host) (cls : String) (view : Option String)
    (m : KnobMap) (kn : String) (m' : KnobMap)
    (hr : processKnob h cls view m kn = Except.ok m')
    (x : String) (hx : x ≠ kn) : m' x = m x := by
  unfold processKnob at hr
  split at hr
  · cases hr; rfl
  · cases hr; rfl
  · rename_i knob_value _heq
    split at hr
    · cases hr
    · rename_i p hp
      cases hr
      rw [step3_preserves view kn knob_value _ x hx,
        step2_preserves h cls kn p x hx,
        step1_preserves h cls m kn knob_value p hp x hx]

/-- Case equation: processing a string-valued knob runs the three steps. -/
theorem processKnob_eq_str (h : Host) (cls : String) (view : Option String)
    (m : KnobMap) (kn knob_value : String) (hv : m kn = some (KnobVal.str knob_value)) :
    processKnob h cls view m kn =
      match step1 h cls m kn knob_value with
      | Except.error e => Except.error e
      | Except.ok p => Except.ok (step3 view kn knob_value (step2 h cls kn p)) := by
  unfold processKnob
  rw [hv]

/-- Case equation: an absent knob is skipped (line 92). -/
theorem processKnob_eq_none (h : Host) (cls : String) (view : Option String)
    (m : KnobMap) (kn : String) (hv : m kn = none) :
    processKnob h cls view m kn = Except.ok m := by
  unfold processKnob
  rw [hv]

/-- A knob whose value has no `[` and no reason to change keeps its value:
the expression branch is skipped, the Write-relative branch requires a
Write node with a relative path, and a supplied view rewrites the value
only when a view token occurs in it. -/
theorem processKnob_noop (h : Host) (cls : String) (view : Option String) (m : KnobMap)
    (kn v : String) (hv : m kn = some (KnobVal.str v))
    (hnb : v.data.contains '[' = false)
    (hw : ¬ (cls = "Write" ∧ pyIsAbs v = false))
    (hview : view = none ∨
      (hasInfix v.data ("%v".data) = false ∧ hasInfix v.data ("%V".data) = false)) :
    ∃ m1, processKnob h cls view m kn = Except.ok m1 ∧ m1 kn = some (KnobVal.str v) := by
  rw [processKnob_eq_str h cls view m kn v hv]
  have hs1 : step1 h cls m kn v = Except.ok (m, v) := by
    unfold step1
    rw [hnb]
    simp
  have hs2 : step2 h cls kn (m, v) = (m, v) := by
    unfold step2
    by_cases hcw : cls = "Write"
    · rw [if_pos hcw]
      have habs : pyIsAbs v = true := by
        rcases Bool.eq_false_or_eq_true (pyIsAbs v) with ht | hf
        · exact ht
        · exact absurd ⟨hcw, hf⟩ hw
      rw [habs]
      simp
    · rw [if_neg hcw]
  simp only [hs1, hs2]
  cases view with
  | none => exact ⟨m, rfl, hv⟩
  | some vw =>
    rcases hview with hv0 | ⟨h1, h2⟩
    · cases hv0
    · refine ⟨setKnob m kn (viewSubst v vw), rfl, ?_⟩
      rw [viewSubst_id v vw h1 h2, setKnob_same]

/-- When the `font` knob is absent, `freeze_node` is the `file` step
alone. -/
theorem freeze_node_font_none (h : Host) (cls : String) (view : Option String)
    (m m1 : KnobMap) (hfile : processKnob h cls view m "file" = Except.ok m1)
    (hfont : m "font" = none) :
    freeze_node h cls view m = Except.ok m1 := by
  unfold freeze_node
  rw [hfile]
  have h1 : m1 "font" = none := by
    rw [processKnob_preserves h cls view m "file" m1 hfile "font" (by decide), hfont]
  exact processKnob_eq_none h cls view m1 "font" h1

/-! ### Claim theorems -/

/-- C1 counterexample: an exception raised by the export step
(`save_func` inside `WriteChanges.__exit__`, line 278) is surfaced
without the rollback running: starting from document `0`, a body that
mutates it to `1` and a save that raises leave the live document at `1`,
not its pre-submission state `0`. -/
theorem C1_cex :
    writeChanges (fun _ : Nat => (Except.error 0 : Except Nat Nat))
        (fun d => (d + 1, none)) 0 = (1, none, some 0)
    ∧ (1 : Nat) ≠ 0 :=
  ⟨rfl, by decide⟩

/-- C1 (amended): the scoped mutate/export block restores the live
document on normal completion and on any exception raised by the block
body (pruning/freezing), PROVIDED the export call in `__exit__` succeeds;
`__exit__` runs `save_func` before `undo.cancel()`, so an exception
raised by the export itself skips the rollback. -/
theorem C1_rollback_when_export_succeeds {Doc File Err : Type}
    (save : Doc → Except Err File) (body : Doc → Doc × Option Err) (doc : Doc) (f : File)
    (hsave : save (body doc).1 = Except.ok f) :
    writeChanges save body doc = (doc, some f, (body doc).2) := by
  have hkey : writeChanges save body doc =
      match save (body doc).1 with
      | Except.error e => ((body doc).1, none, some e)
      | Except.ok f => (doc, some f, (body doc).2) := rfl
  rw [hkey, hsave]

/-- C1 witness: a body that mutates `0` to `1` and raises error `7`,
with a save that succeeds, rolls the document back to `0`, exports the
mutated copy, and surfaces the error of the body. -/
theorem C1_witness :
    writeChanges (fun d : Nat => (Except.ok d : Except Nat Nat))
        (fun d => (d + 1, some 7)) 0 = (0, some 1, some 7) :=
  C1_rollback_when_export_succeeds (fun d : Nat => (Except.ok d : Except Nat Nat))
    (fun d => (d + 1, some 7)) 0 1 rfl

/-- C10: freezing is not total on expression-bearing values with literal
brace characters: on a non-Write node whose `file` value is `ab}[x]`
(open bracket plus a literal `}`), the placeholder re-substitution via
`str.format` (line 128) raises instead of producing a frozen path, and
the exception propagates out of `freeze_node`. -/
theorem C10_format_raises_on_literal_brace :
    freeze_node hostX "Read" none (singleKnob "file" "ab\x7d[x]")
      = Except.error FmtErr.singleClose := rfl

/-- C4 counterexample: freezing the value `render_%v.%V.exr` with view
`left` does NOT yield `render_l.left.exr`: the code substitutes
`view.lower()` for `%v` and `view.upper()` for `%V` (lines 79-80 and
143-144), not the short view code and the full view name. -/
theorem C4_cex :
    knobValueAfter (freeze_node hostId "Read" (some "left")
        (singleKnob "file" "render_%v.%V.exr")) "file"
      ≠ some (KnobVal.str "render_l.left.exr") := by decide

/-- C4 (amended): with view `left`, `%v` is replaced by the lowercased
view name and `%V` by the uppercased view name, so `render_%v.%V.exr`
yields `render_left.LEFT.exr` — both through the view step of `freeze_node`
and through `freeze_stereo_node`. -/
theorem C4_view_tokens_lower_upper :
    knobValueAfter (freeze_node hostId "Read" (some "left")
        (singleKnob "file" "render_%v.%V.exr")) "file"
      = some (KnobVal.str "render_left.LEFT.exr")
    ∧ knobValueAfter (freeze_stereo_node hostId "Read" (some "left")
        (singleKnob "file" "render_%v.%V.exr")) "file"
      = some (KnobVal.str "render_left.LEFT.exr") :=
  ⟨by decide, by decide⟩

/-- C6 counterexample: `freeze_node` has no separator-normalization step:
a backslash-separated value without an expression marker passes through
unchanged, so the resulting path is not in forward-slash form. -/
theorem C6_cex :
    knobValueAfter (freeze_node hostId "Read" none
        (singleKnob "file" "out\\seq\\img.exr")) "file"
      = some (KnobVal.str "out\\seq\\img.exr")
    ∧ ("out\\seq\\img.exr".data.contains '\\') = true
    ∧ "out\\seq\\img.exr" ≠ "out/seq/img.exr" :=
  ⟨by decide, by decide, by decide⟩

/-- C6 (amended): no path-separator normalization is performed anywhere
in `freeze_node`: for EVERY host state, freezing a backslash-separated
expression-free value on a non-Write node returns it verbatim,
backslashes included. -/
theorem C6_no_separator_normalization (h : Host) :
    knobValueAfter (freeze_node h "Read" none
        (singleKnob "file" "out\\seq\\img.exr")) "file"
      = some (KnobVal.str "out\\seq\\img.exr") := rfl

/-- C2: for every dependency graph and every set of root nodes `S`, the
closure computed by `get_dependent_nodes` (unioned over the roots, as
`select_deps` does) contains `S`, and applying the walker to its own
result adds nothing: `depClosure` is a fixed point of the
union-of-direct-dependencies step. -/
theorem C2_closure_extensive_idempotent {n : Nat} (deps : Fin n → Finset (Fin n))
    (S : Finset (Fin n)) :
    S ⊆ depClosure deps S ∧ depClosure deps (depClosure deps S) = depClosure deps S := by
  constructor
  · intro x hx
    exact Finset.mem_biUnion.mpr ⟨x, hx, (gdn_mem_iff deps x x).mpr Relation.ReflTransGen.refl⟩
  · apply Finset.ext
    intro y
    constructor
    · intro hy
      rcases Finset.mem_biUnion.mp hy with ⟨a, ha, hay⟩
      rcases Finset.mem_biUnion.mp ha with ⟨r, hr, hra⟩
      exact Finset.mem_biUnion.mpr
        ⟨r, hr, (gdn_mem_iff deps r y).mpr
          (((gdn_mem_iff deps r a).mp hra).trans ((gdn_mem_iff deps a y).mp hay))⟩
    · intro hy
      rcases Finset.mem_biUnion.mp hy with ⟨r, hr, hry⟩
      refine Finset.mem_biUnion.mpr ⟨r, ?_, hry⟩
      exact Finset.mem_biUnion.mpr
        ⟨r, hr, (gdn_mem_iff deps r r).mpr Relation.ReflTransGen.refl⟩

/-- C5 counterexample: freezing is NOT a no-op on every expression-free
value regardless of view: on a non-Write node with value `render_%v.exr`
(no open bracket) and view `left`, the view step rewrites the knob to
`render_left.exr`. -/
theorem C5_cex :
    knobValueAfter (freeze_node hostId "Read" (some "left")
        (singleKnob "file" "render_%v.exr")) "file"
      = some (KnobVal.str "render_left.exr")
    ∧ "render_left.exr" ≠ "render_%v.exr" :=
  ⟨by decide, by decide⟩

/-- C5 (amended): freezing a knob whose string value contains no open
bracket leaves the value unchanged PROVIDED the node is not a Write-class
node with a non-absolute value (which would be absolutised, lines
134-140) and either no view is supplied or the value contains neither
`%v` nor `%V` (otherwise the view step rewrites it, lines 141-145). -/
theorem C5_noop_without_bracket (h : Host) (cls : String) (view : Option String)
    (m : KnobMap) (v : String)
    (hv : m "file" = some (KnobVal.str v)) (hfont : m "font" = none)
    (hnb : v.data.contains '[' = false)
    (hw : ¬ (cls = "Write" ∧ pyIsAbs v = false))
    (hview : view = none ∨
      (hasInfix v.data ("%v".data) = false ∧ hasInfix v.data ("%V".data) = false)) :
    knobValueAfter (freeze_node h cls view m) "file" = some (KnobVal.str v) := by
  obtain ⟨m1, hm1, hv1⟩ := processKnob_noop h cls view m "file" v hv hnb hw hview
  rw [freeze_node_font_none h cls view m m1 hm1 hfont]
  exact hv1

/-- C5 witness: a token-free, bracket-free value on a Read node with a
view supplied is left unchanged. -/
theorem C5_witness :
    knobValueAfter (freeze_node hostId "Read" (some "left")
        (singleKnob "file" "out.exr")) "file" = some (KnobVal.str "out.exr") :=
  C5_noop_without_bracket hostId "Read" (some "left") (singleKnob "file" "out.exr")
    "out.exr" rfl rfl (by decide) (by decide) (Or.inr ⟨by decide, by decide⟩)

/-- Non-Write expression branch in full: with a bracket in the value and
a successful freeze, the knob is set to the frozen path (no view, class
`Read`). -/
theorem processKnob_read_frozen (h : Host) (m : KnobMap) (v fp : String)
    (hv : m "file" = some (KnobVal.str v))
    (hb : v.data.contains '[' = true)
    (hfz : freezeExpr h.eval v = Except.ok fp) :
    processKnob h "Read" none m "file" = Except.ok (setKnob m "file" fp) := by
  rw [processKnob_eq_str h "Read" none m "file" v hv]
  have hs1 : step1 h "Read" m "file" v = Except.ok (setKnob m "file" fp, fp) := by
    unfold step1
    rw [hb, hfz]
    rw [if_pos rfl]
    rw [if_neg (show ¬ ("Read" = "Write") by decide)]
  have hs2 : step2 h "Read" "file" (setKnob m "file" fp, fp) = (setKnob m "file" fp, fp) := by
    unfold step2
    rw [if_neg (show ¬ ("Read" = "Write") by decide)]
  simp only [hs1, hs2]
  rfl

/-- C3: freezing `[knob foo].render.####.exr` on a non-Write node, with
any evaluator that resolves `[knob foo]` to `v1` and leaves the
`{__frame1}` placeholder alone, yields `v1.render.####.exr`: the `####`
run is preserved verbatim rather than collapsed to a frame number. -/
theorem C3_frame_tokens_preserved (evalf : String → String)
    (hEval : evalf "[knob foo].render.{__frame1}.exr" = "v1.render.{__frame1}.exr") :
    knobValueAfter (freeze_node (mkHost evalf) "Read" none
        (singleKnob "file" "[knob foo].render.####.exr")) "file"
      = some (KnobVal.str "v1.render.####.exr") := by
  have hfz : freezeExpr evalf "[knob foo].render.####.exr"
      = Except.ok "v1.render.####.exr" := by
    have hkey : freezeExpr evalf "[knob foo].render.####.exr"
        = pyFormat (evalf "[knob foo].render.{__frame1}.exr") [("__frame1", "####")] := rfl
    rw [hkey, hEval]
    rfl
  have h1 := processKnob_read_frozen (mkHost evalf)
    (singleKnob "file" "[knob foo].render.####.exr")
    "[knob foo].render.####.exr" "v1.render.####.exr" rfl (by decide) hfz
  rw [freeze_node_font_none (mkHost evalf) "Read" none _ _ h1 rfl]
  exact setKnob_same _ "file" _

/-- C3 witness: the concrete evaluator resolving only `[knob foo]`. -/
theorem C3_witness :
    knobValueAfter (freeze_node (mkHost evalFoo) "Read" none
        (singleKnob "file" "[knob foo].render.####.exr")) "file"
      = some (KnobVal.str "v1.render.####.exr") :=
  C3_frame_tokens_preserved evalFoo (by decide)

/-- C9: when a view is supplied to `freeze_node` and the original knob
value contains an expression marker, the final knob value is the
pre-freeze value with only `%v`/`%V` substituted: the view step (lines
141-145) reads the `knob_value` captured at line 94 and writes it back,
discarding the frozen result set at line 130. -/
theorem C9_view_overwrites_frozen (h : Host) (cls : String) (vw : String)
    (m : KnobMap) (v : String) (m2 : KnobMap)
    (hv : m "file" = some (KnobVal.str v))
    (_hb : v.data.contains '[' = true)
    (hok : freeze_node h cls (some vw) m = Except.ok m2) :
    m2 "file" = some (KnobVal.str (viewSubst v vw)) := by
  unfold freeze_node at hok
  cases hq : processKnob h cls (some vw) m "file" with
  | error e => rw [hq] at hok; cases hok
  | ok m1 =>
    rw [hq] at hok
    have hfile1 : m1 "file" = some (KnobVal.str (viewSubst v vw)) := by
      rw [processKnob_eq_str h cls (some vw) m "file" v hv] at hq
      cases hs : step1 h cls m "file" v with
      | error e => rw [hs] at hq; cases hq
      | ok p =>
        rw [hs] at hq
        injection hq with hq1
        rw [← hq1]
        exact setKnob_same _ "file" _
    rw [processKnob_preserves h cls (some vw) m1 "font" m2 hok "file" (by decide), hfile1]

/-- C9 witness: on `[x].%v.exr` with view `left`, the final value is the
view-substituted original `[x].left.exr` (the expression is still there),
not the frozen path. -/
theorem C9_witness : mC9out "file" = some (KnobVal.str "[x].left.exr") :=
  C9_view_overwrites_frozen hostId "Read" "left" mC9 "[x].%v.exr" mC9out
    rfl (by decide) rfl

/-- A bracket-free value skips the expression branch. -/
theorem step1_nobracket (h : Host) (cls : String) (m : KnobMap) (kn v : String)
    (hnb : v.data.contains '[' = false) :
    step1 h cls m kn v = Except.ok (m, v) := by
  unfold step1
  rw [hnb]
  simp

/-- On a Write node with a bracket, the knob becomes `nuke.filename`
(line 101). -/
theorem step1_write_bracket (h : Host) (m : KnobMap) (kn v : String)
    (hb : v.data.contains '[' = true) :
    step1 h "Write" m kn v = Except.ok (setKnob m kn h.filename, h.filename) := by
  unfold step1
  rw [hb]
  simp

/-- On a Write node with a relative current value, `step2` absolutises it
against the project directory (falling back to the script directory). -/
theorem step2_write_rel (h : Host) (kn : String) (m1 : KnobMap) (cur : String)
    (hrel : pyIsAbs cur = false) :
    step2 h "Write" kn (m1, cur)
      = (setKnob m1 kn (h.abspath (pyJoin
            (if h.project_dir = "" then pyDirname h.script_name else h.project_dir) cur)),
         h.abspath (pyJoin
            (if h.project_dir = "" then pyDirname h.script_name else h.project_dir) cur)) := by
  unfold step2
  rw [if_pos rfl]
  dsimp only
  rw [hrel]
  rfl

/-- C7 counterexample: a Read node — inside the allow-list named by the claim — with a
relative, expression-free path is left untouched by freezing: no
project-directory resolution happens for it (line 134 tests only for the
Write class). -/
theorem C7_cex :
    knobValueAfter (freeze_node hC7w "Read" none
        (singleKnob "file" "shots/a.exr")) "file"
      = some (KnobVal.str "shots/a.exr")
    ∧ pyIsAbs "shots/a.exr" = false :=
  ⟨by decide, by decide⟩

/-- C7 (amended): only Write-class nodes get project-relative resolution.
For a Write node whose current path after the expression branch (the
`nuke.filename` value when the original had a bracket, the original value
otherwise) is not absolute, freezing resolves it with
`os.path.abspath(os.path.join(project_dir, path))`, where the project
directory falls back to the directory of the open script when
unconfigured. -/
theorem C7_write_only_relative_resolution (h : Host) (m : KnobMap) (v : String)
    (hv : m "file" = some (KnobVal.str v)) (hfont : m "font" = none)
    (hrel : pyIsAbs (if v.data.contains '[' then h.filename else v) = false) :
    knobValueAfter (freeze_node h "Write" none m) "file"
      = some (KnobVal.str (h.abspath (pyJoin
          (if h.project_dir = "" then pyDirname h.script_name else h.project_dir)
          (if v.data.contains '[' then h.filename else v)))) := by
  cases hb : v.data.contains '[' with
  | false =>
    rw [hb] at hrel
    have hrel2 : pyIsAbs v = false := hrel
    have hs2 := step2_write_rel h "file" m v hrel2
    have h1 : processKnob h "Write" none m "file"
        = Except.ok (setKnob m "file" (h.abspath (pyJoin
            (if h.project_dir = "" then pyDirname h.script_name else h.project_dir) v))) := by
      rw [processKnob_eq_str h "Write" none m "file" v hv,
        step1_nobracket h "Write" m "file" v hb]
      simp only [hs2]
      rfl
    rw [freeze_node_font_none h "Write" none m _ h1 hfont]
    exact setKnob_same _ "file" _
  | true =>
    rw [hb] at hrel
    have hrel2 : pyIsAbs h.filename = false := hrel
    have hs2 := step2_write_rel h "file" (setKnob m "file" h.filename) h.filename hrel2
    have h1 : processKnob h "Write" none m "file"
        = Except.ok (setKnob (setKnob m "file" h.filename) "file" (h.abspath (pyJoin
            (if h.project_dir = "" then pyDirname h.script_name else h.project_dir)
            h.filename))) := by
      rw [processKnob_eq_str h "Write" none m "file" v hv,
        step1_write_bracket h m "file" v hb]
      simp only [hs2]
      rfl
    rw [freeze_node_font_none h "Write" none m _ h1 hfont]
    exact setKnob_same _ "file" _

/-- C7 witness: a Write node with relative path `shots/a.exr`, project
directory `/proj` and identity `abspath` freezes to `/proj/shots/a.exr`. -/
theorem C7_witness :
    knobValueAfter (freeze_node hC7w "Write" none
        (singleKnob "file" "shots/a.exr")) "file"
      = some (KnobVal.str "/proj/shots/a.exr") :=
  C7_write_only_relative_resolution hC7w (singleKnob "file" "shots/a.exr") "shots/a.exr"
    rfl rfl (by decide)

/-- C8: validation errors are raised while the modal dialog is still
open, before `submit()` — the only mutating/exporting code — can run:
with both project fields blank after stripping, a logged-in user gets the
blank-project error and the document is untouched; a logged-out user gets
the login error and the document is untouched; and whenever any
validation error is raised (including a declined skip-check
confirmation), the document is untouched — for EVERY possible mutation
behaviour of `submit()`. -/
theorem C8_validation_before_mutation (st : PanelState) (doc : Nat) (eff : Nat → Nat) :
    (st.logged_in = true → pyStrip st.existing_project = "" → pyStrip st.new_project = "" →
      click_submit st doc eff = (doc, some ZyncError.blankProject))
    ∧ (st.logged_in = false → click_submit st doc eff = (doc, some ZyncError.notLoggedIn))
    ∧ ((click_submit st doc eff).2.isSome = true → (click_submit st doc eff).1 = doc) := by
  refine ⟨?_, ?_, ?_⟩
  · intro hl he hn
    unfold click_submit submit_checks
    rw [hl]
    simp [he, hn]
  · intro hl
    unfold click_submit submit_checks
    rw [hl]
    simp
  · intro hs
    cases hsc : submit_checks st with
    | some e =>
      unfold click_submit
      rw [hsc]
    | none =>
      exfalso
      unfold click_submit at hs
      rw [hsc] at hs
      simp at hs

/-- C8 witness: logged in, existing project all whitespace, new project
empty: the blank-project error is raised and the document is unchanged
even though the submission body would have mutated it. -/
theorem C8_witness :
    click_submit stBlank 0 (fun d => d + 1) = (0, some ZyncError.blankProject) :=
  (C8_validation_before_mutation stBlank 0 (fun d => d + 1)).1 rfl (by decide) (by decide)

end ZyncNuke
